import Mathlib

/-!
Verification development for the job orchestration engine of the
AI QA Copilot runner (module `app/workers/job_worker.py`, together with the
progress remapping helper of `app/services/evaluation.py`, the scripted
test-execution unit of work of `app/services/test_runner.py`, and the cancel
endpoint of `app/api/jobs.py`).

The embedding is shallow: every `async with jobs_lock:` block of the source
is translated into one pure Lean function on the job record (those blocks are
atomic with respect to the registry), and the interleaving of the background
execution task with concurrently arriving cancel / progress / phase calls is
a small-step relation whose steps apply those functions.  Timestamps are
abstract `Nat` ticks.  Result payloads are abstracted to the two facts the
registry inspects: whether the value is a dict and the truthiness of its
"canceled" key.
-/

namespace JobWorker

/-- Job status, from `JobStatus` in `app/models/schemas.py`. -/
inductive Status
  | queued
  | running
  | completed
  | failed
  | timeout
  | canceled
deriving DecidableEq, Repr

/-- The four terminal statuses, as enumerated in `cancel_job`
(`status in \x7b"completed", "failed", "timeout", "canceled"\x7d`). -/
def Status.isTerminal : Status → Bool
  | .completed => true
  | .failed => true
  | .timeout => true
  | .canceled => true
  | _ => false

/-- Job kind, from `JobKind` in `app/models/schemas.py`. -/
inductive JobKind
  | scan
  | run_tests
  | eval_baseline
  | eval_advanced
  | eval_compare
  | report_pdf
deriving DecidableEq, Repr

/-- `JobError` from `app/models/schemas.py`; `details` is abstracted to an
optional opaque string (the registry never inspects it). -/
structure JobError where
  code : String
  message : String
  details : Option String
deriving DecidableEq, Repr

/-- Abstraction of a unit-of-work result payload: the completion block of
`_run_job` only tests `isinstance(result_payload, dict)` and
`bool(result_payload.get("canceled"))`. -/
structure ResultVal where
  isDict : Bool
  canceledFlag : Bool
deriving DecidableEq, Repr

/-- `isinstance(result_payload, dict) and bool(result_payload.get("canceled"))`. -/
def resultCanceled (r : ResultVal) : Bool :=
  r.isDict && r.canceledFlag

/-- `JobState` from `app/models/schemas.py`.  `progress` is `Int` because the
bridge accepts any Python int from a unit of work.  Timestamps are ticks. -/
structure JobState where
  kind : JobKind
  status : Status
  phase : Option String
  progress : Int
  createdAt : Nat
  startedAt : Option Nat
  finishedAt : Option Nat
  result : Option ResultVal
  error : Option JobError
deriving DecidableEq, Repr

/-- The `CANCELED_BY_USER` error attached by `cancel_job` and by the
cancellation branches of `_run_job`. -/
def cancelError : JobError :=
  { code := "CANCELED_BY_USER", message := "Run tests canceled by user.", details := none }

/-- The record allocated by `create_job`: status `queued`, progress 0,
everything else unset. -/
def initJob (k : JobKind) (t : Nat) : JobState :=
  { kind := k, status := Status.queued, phase := none, progress := 0,
    createdAt := t, startedAt := none, finishedAt := none, result := none, error := none }

/-- The mutation performed by `cancel_job` on a job record that exists.
Mirrors `cancel_job` lines 58-78: a kind other than `run_tests` raises
(no mutation), a terminal job is returned unchanged, otherwise the record is
flipped to `canceled` with a stamped `finished_at` and a
`CANCELED_BY_USER` error. -/
def applyCancel (j : JobState) (now : Nat) : JobState :=
  if j.kind ≠ JobKind.run_tests then j
  else if j.status.isTerminal then j
  else { j with status := Status.canceled, phase := some "canceled",
                finishedAt := some now, error := some cancelError }

/-- Outcome of `cancel_job` as seen by its caller. -/
inductive CancelOutcome
  | notFound
  | invalidOp (msg : String)
  | ok (j : JobState)
deriving DecidableEq, Repr

/-- `cancel_job` at the registry level: the store holds the looked-up record
(or nothing).  Returns the outcome together with the store after the call. -/
def cancel_job (store : Option JobState) (now : Nat) : CancelOutcome × Option JobState :=
  match store with
  | none => (CancelOutcome.notFound, none)
  | some current =>
    if current.kind ≠ JobKind.run_tests then
      (CancelOutcome.invalidOp "Only run_tests jobs can be canceled.", some current)
    else if current.status.isTerminal then
      (CancelOutcome.ok current, some current)
    else
      let j := applyCancel current now
      (CancelOutcome.ok j, some j)

/-- HTTP-level outcome of `POST /jobs/\x7bjob_id\x7d/cancel`
(`post_cancel_job` in `app/api/jobs.py`). -/
inductive CancelApi
  | badRequest (code : String)
  | notFound
  | ok (j : JobState)
deriving DecidableEq, Repr

/-- `post_cancel_job` from `app/api/jobs.py`: a `ValueError` from `cancel_job`
becomes a 400 with error code `INVALID_OPERATION`, an absent job a 404,
otherwise the record is returned. -/
def post_cancel_job (store : Option JobState) (now : Nat) : CancelApi × Option JobState :=
  match cancel_job store now with
  | (CancelOutcome.invalidOp _, st) => (CancelApi.badRequest "INVALID_OPERATION", st)
  | (CancelOutcome.notFound, st) => (CancelApi.notFound, st)
  | (CancelOutcome.ok j, st) => (CancelApi.ok j, st)

/-- The first locked block of `_run_job` (lines 104-111) when the job is not
already canceled: transition to `running`, phase `initializing`, stamp
`started_at`, progress 5. -/
def startRecord (j : JobState) (now : Nat) : JobState :=
  { j with status := Status.running, phase := some "initializing",
           startedAt := some now, progress := 5 }

/-- `_set_progress` (lines 241-246): dropped unless the job is `running`,
otherwise monotonic max against the incoming value clamped to at most 99. -/
def set_progress (j : JobState) (p : Int) : JobState :=
  if j.status = Status.running then
    { j with progress := max j.progress (min p 99) }
  else j

/-- `_set_phase` (lines 249-254): dropped unless the job is `running`. -/
def set_phase (j : JobState) (ph : String) : JobState :=
  if j.status = Status.running then { j with phase := some ph } else j

/-- `_fail_job` (lines 257-266): skipped when the job is already `canceled`,
otherwise terminal transition to `failed` with the given error. -/
def fail_job (j : JobState) (code msg : String) (details : Option String) (now : Nat) :
    JobState :=
  if j.status = Status.canceled then j
  else { j with status := Status.failed, phase := some "failed",
                finishedAt := some now,
                error := some { code := code, message := msg, details := details } }

/-- `EVAL_JOB_TIMEOUT_SECONDS = 900` (line 24). -/
def EVAL_JOB_TIMEOUT_SECONDS : Nat := 900

/-- The timeout error code passed to `_timeout_job` at its sole call site. -/
def evalTimeoutCode : String := "EVAL_TIMEOUT"

/-- The timeout message passed to `_timeout_job` at its sole call site
(lines 185-190), with the 900-second constant substituted. -/
def evalTimeoutMessage : String :=
  "Evaluation exceeded " ++ toString EVAL_JOB_TIMEOUT_SECONDS ++
    " seconds. Lower sample_size/fetch_k or rerun baseline first."

/-- `_timeout_job` (lines 269-277), specialised to its only call site:
skipped when already `canceled`, otherwise terminal transition to `timeout`
with the `EVAL_TIMEOUT` error. -/
def timeout_job (j : JobState) (now : Nat) : JobState :=
  if j.status = Status.canceled then j
  else { j with status := Status.timeout, phase := some "timeout",
                finishedAt := some now,
                error := some { code := evalTimeoutCode, message := evalTimeoutMessage,
                                details := none } }

/-- The completion block of `_run_job` (lines 208-235): a job found already
`canceled` only has the partial result attached (and a cancellation error if
none is present); a dict result with a truthy `canceled` key forces the
cooperative-cancellation terminal state; otherwise the job completes with
progress forced to 100 and a cleared error. -/
def completeBlock (j : JobState) (r : ResultVal) (now : Nat) : JobState :=
  if j.status = Status.canceled then
    { j with result := some r,
             error := match j.error with
               | none => some cancelError
               | some e => some e }
  else if resultCanceled r then
    { j with status := Status.canceled, phase := some "canceled",
             finishedAt := some now, result := some r, error := some cancelError }
  else
    { j with status := Status.completed, phase := some "completed", progress := 100,
             finishedAt := some now, result := some r, error := none }

/-- Which kinds are dispatched inside `asyncio.wait_for` and with which
deadline: in `_run_job` only the three evaluation kinds are wrapped
(lines 144-183), all with the same `EVAL_JOB_TIMEOUT_SECONDS`; `scan`,
`run_tests` and unsupported kinds have no deadline. -/
def deadlineFor : JobKind → Option Nat
  | JobKind.eval_baseline => some EVAL_JOB_TIMEOUT_SECONDS
  | JobKind.eval_advanced => some EVAL_JOB_TIMEOUT_SECONDS
  | JobKind.eval_compare => some EVAL_JOB_TIMEOUT_SECONDS
  | _ => none

/-- Program counter of the background `_run_job` task for one job, one point
per atomic region: `start` before the first locked block, `validate` before
payload validation / dispatch, `work` while the unit of work is in flight,
then the pending terminal block, then `done`. -/
inductive RunnerPC
  | start
  | validate
  | work
  | finish (r : ResultVal)
  | failing (code msg : String) (details : Option String)
  | timing
  | done
deriving DecidableEq, Repr

/-- State of the system for a single job: the registry record, the runner
program counter, and whether the unit of work has been invoked. -/
structure Sys where
  job : JobState
  pc : RunnerPC
  workStarted : Bool
deriving DecidableEq, Repr

/-- System state right after `create_job`: record `queued`, runner spawned
but not yet scheduled, unit of work not invoked. -/
def initSys (k : JobKind) (t : Nat) : Sys :=
  { job := initJob k t, pc := RunnerPC.start, workStarted := false }

/-- One atomic step of the system.  `V` says whether the payload of the
submitted request passes schema validation.  Registry operations
(`cancel_job`, `_set_progress`, `_set_phase`) can interleave at any time,
including after the runner is done (late bridge callbacks); the runner steps
follow the control flow of `_run_job`. -/
inductive Step (V : Bool) : Sys → Sys → Prop
  | cancel (s : Sys) (now : Nat) :
      Step V s { s with job := applyCancel s.job now }
  | progress (s : Sys) (p : Int) :
      Step V s { s with job := set_progress s.job p }
  | phase (s : Sys) (ph : String) :
      Step V s { s with job := set_phase s.job ph }
  | blockA_skip (s : Sys) :
      s.pc = RunnerPC.start → s.job.status = Status.canceled →
      Step V s { s with pc := RunnerPC.done }
  | blockA_go (s : Sys) (now : Nat) :
      s.pc = RunnerPC.start → s.job.status ≠ Status.canceled →
      Step V s { s with job := startRecord s.job now, pc := RunnerPC.validate }
  | validate_ok (s : Sys) :
      s.pc = RunnerPC.validate → V = true →
      Step V s { s with pc := RunnerPC.work, workStarted := true }
  | validate_bad (s : Sys) (d : Option String) :
      s.pc = RunnerPC.validate → V = false →
      Step V s { s with pc := RunnerPC.failing "INVALID_INPUT" "Invalid job payload." d }
  | dispatch_unsupported (s : Sys) (msg : String) :
      s.pc = RunnerPC.validate →
      Step V s { s with pc := RunnerPC.failing "JOB_FAILED" msg none }
  | work_return (s : Sys) (r : ResultVal) :
      s.pc = RunnerPC.work →
      Step V s { s with pc := RunnerPC.finish r }
  | work_raise (s : Sys) (msg : String) :
      s.pc = RunnerPC.work →
      Step V s { s with pc := RunnerPC.failing "JOB_FAILED" msg none }
  | work_timeout (s : Sys) :
      s.pc = RunnerPC.work → (deadlineFor s.job.kind).isSome = true →
      Step V s { s with pc := RunnerPC.timing }
  | finish_commit (s : Sys) (r : ResultVal) (now : Nat) :
      s.pc = RunnerPC.finish r →
      Step V s { s with job := completeBlock s.job r now, pc := RunnerPC.done }
  | fail_commit (s : Sys) (c m : String) (d : Option String) (now : Nat) :
      s.pc = RunnerPC.failing c m d →
      Step V s { s with job := fail_job s.job c m d now, pc := RunnerPC.done }
  | timeout_commit (s : Sys) (now : Nat) :
      s.pc = RunnerPC.timing →
      Step V s { s with job := timeout_job s.job now, pc := RunnerPC.done }

/-- States reachable from job creation by interleaved atomic steps. -/
inductive Reachable (V : Bool) (k : JobKind) (t : Nat) : Sys → Prop
  | init : Reachable V k t (initSys k t)
  | step {s s' : Sys} : Reachable V k t s → Step V s s' → Reachable V k t s'

/-- The inductive invariant of the system, proved to hold on all reachable
states. -/
structure Inv (s : Sys) : Prop where
  errIff : s.job.error.isSome = true ↔
    (s.job.status = Status.failed ∨ s.job.status = Status.timeout ∨
      s.job.status = Status.canceled)
  termDone : s.job.status = Status.completed ∨ s.job.status = Status.failed ∨
    s.job.status = Status.timeout → s.pc = RunnerPC.done
  wsStarted : s.workStarted = true → s.job.startedAt.isSome = true
  midStarted : s.pc ≠ RunnerPC.start → s.pc ≠ RunnerPC.done →
    s.job.startedAt.isSome = true
  pcStart : s.pc = RunnerPC.start →
    s.job.status = Status.queued ∨ s.job.status = Status.canceled
  queuedInit : s.job.status = Status.queued →
    s.job.startedAt = none ∧ s.pc = RunnerPC.start
  runProg : s.job.status = Status.running →
    0 ≤ s.job.progress ∧ s.job.progress ≤ 99
  compProg : s.job.status = Status.completed → s.job.progress = 100
  timeoutKind : s.job.status = Status.timeout ∨ s.pc = RunnerPC.timing →
    (deadlineFor s.job.kind).isSome = true

/-- Descending order on `created_at`, the sort key of `list_jobs`
(`items.sort(key=..., reverse=True)`). -/
def createdDesc (a b : JobState) : Prop :=
  b.createdAt ≤ a.createdAt

instance : DecidableRel createdDesc :=
  fun a b => inferInstanceAs (Decidable (b.createdAt ≤ a.createdAt))

instance : IsTotal JobState createdDesc :=
  ⟨fun a b => Nat.le_total b.createdAt a.createdAt⟩

instance : IsTrans JobState createdDesc :=
  ⟨fun _ _ _ hab hbc => le_trans hbc hab⟩

/-- The two filter passes of `list_jobs` (lines 94-97): equality on `kind`
when a kind filter is given, then equality on `status`. -/
def applyFilters (store : List JobState) (kind : Option JobKind) (status : Option Status) :
    List JobState :=
  let items := store
  let items := match kind with
    | none => items
    | some k => items.filter (fun j => decide (j.kind = k))
  match status with
  | none => items
  | some st => items.filter (fun j => decide (j.status = st))

/-- A record matches the optional equality filters of `list_jobs`. -/
def matchesFilters (kind : Option JobKind) (status : Option Status) (j : JobState) : Bool :=
  (match kind with | none => true | some k => decide (j.kind = k)) &&
  (match status with | none => true | some st => decide (j.status = st))

/-- `list_jobs` (lines 86-100): snapshot the store, filter by `kind` and
`status`, sort by `created_at` descending, truncate to `limit`.  The source
read is pure: the sort happens on the snapshot list and no record is
mutated. -/
def list_jobs (store : List JobState) (kind : Option JobKind) (status : Option Status)
    (limit : Nat) : List JobState :=
  (List.insertionSort createdDesc (applyFilters store kind status)).take limit

/-- The numeric remapping performed by the `_mapped` closure produced by
`_map_progress(on_progress, start, end)` in `app/services/evaluation.py`
(lines 408-424): the sub-range bounds are clamped into [0,100] with
`end` at least `start`, the local progress is clipped to [0,100], and the
parent value is `safe_start + int((clipped / 100) * span)`.  Python computes
the inner expression with exact nonnegative operands and truncates; on
nonnegative values that is floor division by 100, which is what `/` on `Int`
computes here. -/
def map_progress (st en p : Int) : Int :=
  let safe_start := max 0 (min st 100)
  let safe_end := max safe_start (min en 100)
  let span := safe_end - safe_start
  let clipped := max 0 (min p 100)
  safe_start + clipped * span / 100

/-- Result of `run_flow_spec_tests` in `app/services/test_runner.py`,
restricted to the fields the claims inspect.  `tests` abstracts the per-test
result entries to their pass/fail status. -/
structure RunResult where
  total : Nat
  passed : Nat
  failed : Nat
  batch_size : Nat
  canceled : Bool
  tests : List Bool
deriving DecidableEq, Repr

/-- The sequential fallback loop of `run_flow_spec_tests` (lines 196-203,
taken when playwright is unavailable): before each test the stop signal is
polled; on stop the loop breaks with `canceled = True`, otherwise the test
runs and its outcome is appended.  `passedAt i` is the externally determined
outcome of test `i`; `stopAt i` is the value of `should_stop()` at the check
preceding test `i`.  The first argument of the recursion is the index of the
next test, the second the number of tests remaining. -/
def httpLoop (passedAt stopAt : Nat → Bool) : Nat → Nat → List Bool × Bool
  | _, 0 => ([], false)
  | i, rem + 1 =>
    if stopAt i then ([], true)
    else
      let rest := httpLoop passedAt stopAt (i + 1) rem
      (passedAt i :: rest.1, rest.2)

/-- The batched playwright loop of `run_flow_spec_tests` (lines 208-218):
the stop signal is polled once per batch; on stop the loop breaks with
`canceled = True`, otherwise the batch `tests[offset : offset+batch_size]`
runs and its outcomes are appended.  `start` is the current offset, `rem`
the number of tests not yet sliced; the extra fuel argument bounds the
number of iterations and is initialised to the test count (each iteration
consumes at least one test when the batch size is positive). -/
def batchLoopAux (passedAt stopAt : Nat → Bool) (bs : Nat) :
    Nat → Nat → Nat → List Bool × Bool
  | 0, _, _ => ([], false)
  | _ + 1, _, 0 => ([], false)
  | fuel + 1, start, rem + 1 =>
    if stopAt start then ([], true)
    else
      let k := min bs (rem + 1)
      let batch := (List.range k).map (fun j => passedAt (start + j))
      let rest := batchLoopAux passedAt stopAt bs fuel (start + k) (rem + 1 - k)
      (batch ++ rest.1, rest.2)

/-- `run_flow_spec_tests` (lines 185-235): run the batched loop when
playwright is available, the sequential fallback otherwise; then
`passed = |results with status passed|`, `failed = len(results) - passed`,
`total = len(results)`, and the `canceled` flag as set by the loop. -/
def run_flow_spec_tests (playwrightAvailable : Bool) (passedAt stopAt : Nat → Bool)
    (n bs : Nat) : RunResult :=
  let run :=
    if playwrightAvailable then batchLoopAux passedAt stopAt bs n 0 n
    else httpLoop passedAt stopAt 0 n
  let passed := run.1.count true
  { total := run.1.length, passed := passed, failed := run.1.length - passed,
    batch_size := bs, canceled := run.2, tests := run.1 }

/-- A concrete reachable state: a `scan` job whose background task has
executed the first locked block of `_run_job` and is about to validate the
payload.  Its record is observable with status `running`. -/
def runningScan : Sys :=
  { initSys JobKind.scan 0 with
    job := startRecord (initJob JobKind.scan 0) 1, pc := RunnerPC.validate }

/-- The registry record produced by dispatching a job with an invalid
payload under an interference-free schedule: the first locked block of
`_run_job` (transition to `running`), then the `_fail_job` call made when
schema validation raises. -/
def invalidDispatch (j : JobState) (d : Option String) (t1 t2 : Nat) : JobState :=
  fail_job (startRecord j t1) "INVALID_INPUT" "Invalid job payload." d t2

/-- A concrete reachable state: a `run_tests` job canceled while `queued`. -/
def canceledQueued : Sys :=
  { initSys JobKind.run_tests 0 with
    job := applyCancel (initJob JobKind.run_tests 0) 3 }

/-- The successor of `canceledQueued` under a second, idempotent cancel. -/
def canceledQueuedNext : Sys :=
  { canceledQueued with job := applyCancel canceledQueued.job 7 }

theorem isTerminal_false {st : Status} (h : ¬ st.isTerminal = true) :
    st = Status.queued ∨ st = Status.running := by
  cases st <;> simp_all [Status.isTerminal]

theorem isTerminal_iff {st : Status} : st.isTerminal = true ↔
    st = Status.completed ∨ st = Status.failed ∨ st = Status.timeout ∨
      st = Status.canceled := by
  cases st <;> simp [Status.isTerminal]

theorem inv_init (V : Bool) (k : JobKind) (t : Nat) : Inv (initSys k t) := by
  constructor <;> simp [initSys, initJob]

theorem inv_step {V : Bool} {s s' : Sys} (hI : Inv s) (hs : Step V s s') : Inv s' := by
  obtain ⟨hErr, hTerm, hWs, hMid, hPcS, hQ, hRun, hComp, hTk⟩ := hI
  cases hs with
  | cancel now =>
      show Inv { s with job := applyCancel s.job now }
      unfold applyCancel
      split_ifs with h1 h2
      · exact ⟨hErr, hTerm, hWs, hMid, hPcS, hQ, hRun, hComp, hTk⟩
      · exact ⟨hErr, hTerm, hWs, hMid, hPcS, hQ, hRun, hComp, hTk⟩
      · refine ⟨?_, ?_, ?_, ?_, ?_, ?_, ?_, ?_, ?_⟩ <;> simp_all [cancelError]
  | progress p =>
      show Inv { s with job := set_progress s.job p }
      unfold set_progress
      split_ifs with h1
      · refine ⟨?_, ?_, ?_, ?_, ?_, ?_, ?_, ?_, ?_⟩ <;> simp_all
      · exact ⟨hErr, hTerm, hWs, hMid, hPcS, hQ, hRun, hComp, hTk⟩
  | phase ph =>
      show Inv { s with job := set_phase s.job ph }
      unfold set_phase
      split_ifs with h1
      · refine ⟨?_, ?_, ?_, ?_, ?_, ?_, ?_, ?_, ?_⟩ <;> simp_all
      · exact ⟨hErr, hTerm, hWs, hMid, hPcS, hQ, hRun, hComp, hTk⟩
  | blockA_skip h1 h2 =>
      refine ⟨?_, ?_, ?_, ?_, ?_, ?_, ?_, ?_, ?_⟩ <;> simp_all
  | blockA_go now h1 h2 =>
      have hq : s.job.status = Status.queued := by
        rcases hPcS h1 with h | h
        · exact h
        · exact absurd h h2
      refine ⟨?_, ?_, ?_, ?_, ?_, ?_, ?_, ?_, ?_⟩ <;> simp_all [startRecord]
  | validate_ok h1 h2 =>
      refine ⟨?_, ?_, ?_, ?_, ?_, ?_, ?_, ?_, ?_⟩ <;> simp_all
  | validate_bad d h1 h2 =>
      refine ⟨?_, ?_, ?_, ?_, ?_, ?_, ?_, ?_, ?_⟩ <;> simp_all
  | dispatch_unsupported msg h1 =>
      refine ⟨?_, ?_, ?_, ?_, ?_, ?_, ?_, ?_, ?_⟩ <;> simp_all
  | work_return r h1 =>
      refine ⟨?_, ?_, ?_, ?_, ?_, ?_, ?_, ?_, ?_⟩ <;> simp_all
  | work_raise msg h1 =>
      refine ⟨?_, ?_, ?_, ?_, ?_, ?_, ?_, ?_, ?_⟩ <;> simp_all
  | work_timeout h1 h2 =>
      refine ⟨?_, ?_, ?_, ?_, ?_, ?_, ?_, ?_, ?_⟩ <;> simp_all
  | finish_commit r now h1 =>
      show Inv { s with job := completeBlock s.job r now, pc := RunnerPC.done }
      unfold completeBlock
      split_ifs with h2 h3
      · refine ⟨?_, ?_, ?_, ?_, ?_, ?_, ?_, ?_, ?_⟩ <;> simp_all [cancelError] <;>
          cases hE : s.job.error <;> simp_all
      · refine ⟨?_, ?_, ?_, ?_, ?_, ?_, ?_, ?_, ?_⟩ <;> simp_all [cancelError]
      · refine ⟨?_, ?_, ?_, ?_, ?_, ?_, ?_, ?_, ?_⟩ <;> simp_all
  | fail_commit c m d now h1 =>
      show Inv { s with job := fail_job s.job c m d now, pc := RunnerPC.done }
      unfold fail_job
      split_ifs with h2
      · refine ⟨?_, ?_, ?_, ?_, ?_, ?_, ?_, ?_, ?_⟩ <;> simp_all
      · refine ⟨?_, ?_, ?_, ?_, ?_, ?_, ?_, ?_, ?_⟩ <;> simp_all
  | timeout_commit now h1 =>
      show Inv { s with job := timeout_job s.job now, pc := RunnerPC.done }
      unfold timeout_job
      split_ifs with h2
      · refine ⟨?_, ?_, ?_, ?_, ?_, ?_, ?_, ?_, ?_⟩ <;> simp_all
      · refine ⟨?_, ?_, ?_, ?_, ?_, ?_, ?_, ?_, ?_⟩ <;> simp_all

theorem reachable_inv {V : Bool} {k : JobKind} {t : Nat} {s : Sys}
    (h : Reachable V k t s) : Inv s := by
  induction h with
  | init => exact inv_init V k t
  | step _ hs ih => exact inv_step ih hs

theorem done_terminal_frozen {V : Bool} {s s' : Sys}
    (hpc : s.pc = RunnerPC.done) (hterm : s.job.status.isTerminal = true)
    (hs : Step V s s') : s'.job = s.job ∧ s'.pc = RunnerPC.done := by
  rcases isTerminal_iff.mp hterm with h | h | h | h <;> cases hs <;>
    simp_all [applyCancel, set_progress, set_phase, Status.isTerminal]

theorem terminal_step_core {V : Bool} {s s' : Sys} (hI : Inv s) (hs : Step V s s')
    (hterm : s.job.status.isTerminal = true) :
    s'.job.status = s.job.status ∧ s'.job.progress = s.job.progress ∧
    s'.job.phase = s.job.phase ∧ s'.job.error = s.job.error ∧
    s'.job.startedAt = s.job.startedAt ∧
    (s'.job.result ≠ s.job.result →
      s.job.status = Status.canceled ∧ s'.pc = RunnerPC.done) := by
  obtain ⟨hErr, hTerm, hWs, hMid, hPcS, hQ, hRun, hComp, hTk⟩ := hI
  rcases isTerminal_iff.mp hterm with h | h | h | h <;> cases hs <;>
    simp_all [applyCancel, set_progress, set_phase, startRecord, completeBlock,
      fail_job, timeout_job, Status.isTerminal] <;>
    cases hE : s.job.error <;> simp_all

/-- Claim C2: once a job has entered a terminal state, no further step
mutates its status, progress, phase, or error; a step that changes the
result is possible only for a `canceled` job (the single partial-result
overwrite performed by the completion block, after which the runner is done
and every later step leaves the whole record unchanged); and re-applying
cancel to an already-terminal cancellable job returns the record
unchanged. -/
theorem terminal_is_final {V : Bool} {k : JobKind} {t : Nat} {s s' : Sys}
    (hr : Reachable V k t s) (hs : Step V s s')
    (hterm : s.job.status.isTerminal = true) :
    s'.job.status = s.job.status ∧
    s'.job.progress = s.job.progress ∧
    s'.job.phase = s.job.phase ∧
    s'.job.error = s.job.error ∧
    (s'.job.result ≠ s.job.result →
      s.job.status = Status.canceled ∧ s'.job.status = Status.canceled ∧
        s'.pc = RunnerPC.done) ∧
    (s'.pc = RunnerPC.done → ∀ s'' : Sys, Step V s' s'' → s''.job = s'.job) ∧
    (s.job.kind = JobKind.run_tests →
      ∀ now, cancel_job (some s.job) now = (CancelOutcome.ok s.job, some s.job)) := by
  have hcore := terminal_step_core (reachable_inv hr) hs hterm
  refine ⟨hcore.1, hcore.2.1, hcore.2.2.1, hcore.2.2.2.1, ?_, ?_, ?_⟩
  · intro hres
    obtain ⟨hc, hpc⟩ := hcore.2.2.2.2.2 hres
    exact ⟨hc, by rw [hcore.1, hc], hpc⟩
  · intro hpc s'' hss
    have ht' : s'.job.status.isTerminal = true := by rw [hcore.1]; exact hterm
    exact (done_terminal_frozen hpc ht' hss).1
  · intro hk now
    simp [cancel_job, hk, hterm]

theorem terminal_is_final_witness :
    canceledQueued.job.status.isTerminal = true ∧
    canceledQueuedNext.job.status = canceledQueued.job.status ∧
    canceledQueuedNext.job.error = canceledQueued.job.error := by
  have hr : Reachable true JobKind.run_tests 0 canceledQueued :=
    Reachable.step Reachable.init (Step.cancel (initSys JobKind.run_tests 0) 3)
  have hs : Step true canceledQueued canceledQueuedNext :=
    Step.cancel canceledQueued 7
  have ht : canceledQueued.job.status.isTerminal = true := by decide
  exact ⟨ht, (terminal_is_final hr hs ht).1, (terminal_is_final hr hs ht).2.2.2.1⟩

theorem invalid_never_starts_work {k : JobKind} {t : Nat} {s : Sys}
    (hr : Reachable false k t s) : s.workStarted = false := by
  induction hr with
  | init => rfl
  | step hprev hs ih => cases hs <;> simp_all

/-- Claim C1 counterexample: a job whose payload fails schema validation is
nevertheless observable with status `running` — the first locked block of
the background task transitions the record to `running` before payload
validation happens. -/
theorem invalid_payload_observable_running :
    Reachable false JobKind.scan 0 runningScan ∧
    runningScan.job.status = Status.running := by
  constructor
  · exact Reachable.step Reachable.init
      (Step.blockA_go (initSys JobKind.scan 0) 1 rfl (by decide))
  · rfl

/-- Claim C1 (amended): on a payload that fails schema validation the job
first transitions to `running`, then immediately transitions to `failed`
with error code `INVALID_INPUT`; the unit of work is never invoked in any
schedule of such a job. -/
theorem invalid_payload_fails_before_work (k : JobKind) (t : Nat) :
    (∀ s : Sys, Reachable false k t s → s.workStarted = false) ∧
    (∀ (j : JobState) (d : Option String) (t1 t2 : Nat),
      (startRecord j t1).status = Status.running ∧
      (invalidDispatch j d t1 t2).status = Status.failed ∧
      (invalidDispatch j d t1 t2).error =
        some { code := "INVALID_INPUT", message := "Invalid job payload.",
               details := d }) := by
  constructor
  · exact fun s hr => invalid_never_starts_work hr
  · intro j d t1 t2
    refine ⟨rfl, ?_, ?_⟩ <;> simp [invalidDispatch, fail_job, startRecord]

theorem invalid_payload_fails_before_work_witness :
    (initSys JobKind.scan 0).workStarted = false ∧
    (invalidDispatch (initJob JobKind.scan 0) none 1 2).status = Status.failed :=
  ⟨(invalid_payload_fails_before_work JobKind.scan 0).1 _ Reachable.init,
   ((invalid_payload_fails_before_work JobKind.scan 0).2
      (initJob JobKind.scan 0) none 1 2).2.1⟩

/-- Claim C3: while a job is running, a progress call updates the record to
the maximum of the current value and the incoming value clamped to at most
99 — progress never decreases and never reaches 100 via the bridge — and a
progress call arriving once the job is terminal leaves the record
unchanged. -/
theorem progress_bridge_spec {V : Bool} {k : JobKind} {t : Nat} {s : Sys}
    (hr : Reachable V k t s) (p : Int) :
    (s.job.status = Status.running →
      (set_progress s.job p).progress = max s.job.progress (min p 99) ∧
      s.job.progress ≤ (set_progress s.job p).progress ∧
      (set_progress s.job p).progress ≤ 99) ∧
    (s.job.status.isTerminal = true → set_progress s.job p = s.job) := by
  constructor
  · intro hrun
    have hb := (reachable_inv hr).runProg hrun
    refine ⟨by simp [set_progress, hrun], ?_, ?_⟩
    · simp only [set_progress, hrun, if_pos]
      exact le_max_left _ _
    · simp only [set_progress, hrun, if_pos]
      exact max_le hb.2 (min_le_right _ _)
  · intro hterm
    rcases isTerminal_iff.mp hterm with h | h | h | h <;> simp [set_progress, h]

theorem progress_bridge_spec_witness :
    (set_progress runningScan.job 42).progress = 42 ∧
    (set_progress runningScan.job 42).progress ≤ 99 := by
  have hr : Reachable true JobKind.scan 0 runningScan :=
    Reachable.step Reachable.init
      (Step.blockA_go (initSys JobKind.scan 0) 1 rfl (by decide))
  have h := (progress_bridge_spec hr 42).1 rfl
  refine ⟨?_, h.2.2⟩
  rw [h.1]; decide

/-- Claim C4: canceling an existing job whose kind does not support
cancellation fails with an invalid-operation error — surfaced as HTTP 400
with code `INVALID_OPERATION` — and leaves the stored record entirely
unchanged. -/
theorem cancel_unsupported_kind (j : JobState) (now : Nat)
    (h : j.kind ≠ JobKind.run_tests) :
    cancel_job (some j) now =
      (CancelOutcome.invalidOp "Only run_tests jobs can be canceled.", some j) ∧
    post_cancel_job (some j) now =
      (CancelApi.badRequest "INVALID_OPERATION", some j) := by
  constructor <;> simp [cancel_job, post_cancel_job, h]

theorem cancel_unsupported_kind_witness :
    cancel_job (some (initJob JobKind.scan 5)) 9 =
      (CancelOutcome.invalidOp "Only run_tests jobs can be canceled.",
        some (initJob JobKind.scan 5)) :=
  (cancel_unsupported_kind (initJob JobKind.scan 5) 9 (by decide)).1

/-- Claim C5: canceling a cancellable job while still `queued` yields a
record with status `canceled`, a `CANCELED_BY_USER` error and a stamped
`finished_at`, while `started_at` stays null; the unit of work has not been
invoked at that point and can never be invoked afterwards. -/
theorem cancel_queued_spec (V : Bool) (k : JobKind) (t : Nat) {s : Sys}
    (hr : Reachable V k t s) (now : Nat)
    (hq : s.job.status = Status.queued) (hk : s.job.kind = JobKind.run_tests) :
    (applyCancel s.job now).status = Status.canceled ∧
    (applyCancel s.job now).error = some cancelError ∧
    (applyCancel s.job now).finishedAt = some now ∧
    (applyCancel s.job now).startedAt = none ∧
    s.workStarted = false ∧
    (∀ s' s'' : Sys, Reachable V k t s' → Step V s' s'' →
      s'.job.status = Status.canceled → s'.job.startedAt = none →
      s''.job.status = Status.canceled ∧ s''.job.startedAt = none ∧
        s''.workStarted = false) := by
  have hI := reachable_inv hr
  have hstart : s.job.startedAt = none := (hI.queuedInit hq).1
  have hws : s.workStarted = false := by
    cases hwsc : s.workStarted
    · rfl
    · have := hI.wsStarted hwsc
      rw [hstart] at this
      simp at this
  refine ⟨?_, ?_, ?_, ?_, hws, ?_⟩
  · simp [applyCancel, hk, hq, Status.isTerminal]
  · simp [applyCancel, hk, hq, Status.isTerminal]
  · simp [applyCancel, hk, hq, Status.isTerminal]
  · simp [applyCancel, hk, hq, Status.isTerminal, hstart]
  · intro s' s'' hr' hs' hc hn
    have hI' := reachable_inv hr'
    have hws' : s'.workStarted = false := by
      cases hwsc : s'.workStarted
      · rfl
      · have := hI'.wsStarted hwsc
        rw [hn] at this
        simp at this
    have hpc : s'.pc = RunnerPC.start ∨ s'.pc = RunnerPC.done := by
      by_cases h1 : s'.pc = RunnerPC.start
      · exact Or.inl h1
      · by_cases h2 : s'.pc = RunnerPC.done
        · exact Or.inr h2
        · have := hI'.midStarted h1 h2
          rw [hn] at this
          simp at this
    rcases hpc with hpc | hpc <;> cases hs' <;>
      simp_all [applyCancel, set_progress, set_phase, Status.isTerminal]

theorem cancel_queued_spec_witness :
    (applyCancel (initJob JobKind.run_tests 0) 4).status = Status.canceled ∧
    (applyCancel (initJob JobKind.run_tests 0) 4).startedAt = none := by
  have h := cancel_queued_spec true JobKind.run_tests 0 Reachable.init 4 rfl rfl
  exact ⟨h.1, h.2.2.2.1⟩

/-- Claim C6 counterexample: not every job kind is wrapped with a deadline —
the `scan` and `run_tests` dispatch arms have no timeout wrapper at all. -/
theorem scan_has_no_deadline :
    deadlineFor JobKind.scan = none ∧ deadlineFor JobKind.run_tests = none :=
  ⟨rfl, rfl⟩

/-- Claim C6 (amended): only the three evaluation kinds are wrapped with a
wall-clock deadline, and they share the single fixed 900-second constant
rather than structurally distinct per-kind values; on expiry the registry
transitions the job (unless already canceled) to `timeout` with code
`EVAL_TIMEOUT` and a message carrying guidance to reduce workload size,
independent of the unit of work record state; kinds without a deadline can
never reach `timeout`. -/
theorem eval_deadline_spec :
    (deadlineFor JobKind.eval_baseline = some EVAL_JOB_TIMEOUT_SECONDS ∧
      deadlineFor JobKind.eval_advanced = some EVAL_JOB_TIMEOUT_SECONDS ∧
      deadlineFor JobKind.eval_compare = some EVAL_JOB_TIMEOUT_SECONDS ∧
      deadlineFor JobKind.scan = none ∧
      deadlineFor JobKind.run_tests = none ∧
      deadlineFor JobKind.report_pdf = none) ∧
    EVAL_JOB_TIMEOUT_SECONDS = 900 ∧
    evalTimeoutMessage =
      "Evaluation exceeded 900 seconds. Lower sample_size/fetch_k or rerun baseline first." ∧
    (∀ (j : JobState) (now : Nat), j.status ≠ Status.canceled →
      (timeout_job j now).status = Status.timeout ∧
      (timeout_job j now).error =
        some { code := evalTimeoutCode, message := evalTimeoutMessage,
               details := none } ∧
      (timeout_job j now).finishedAt = some now) ∧
    (∀ (V : Bool) (k : JobKind) (t : Nat) (s : Sys), Reachable V k t s →
      s.job.status = Status.timeout → (deadlineFor s.job.kind).isSome = true) := by
  refine ⟨⟨rfl, rfl, rfl, rfl, rfl, rfl⟩, rfl, rfl, ?_, ?_⟩
  · intro j now h
    refine ⟨?_, ?_, ?_⟩ <;> simp [timeout_job, h]
  · intro V k t s hr hts
    exact (reachable_inv hr).timeoutKind (Or.inl hts)

theorem eval_deadline_spec_witness :
    (timeout_job (startRecord (initJob JobKind.eval_baseline 0) 1) 8).status =
      Status.timeout :=
  (eval_deadline_spec.2.2.2.1 (startRecord (initJob JobKind.eval_baseline 0) 1) 8
    (by decide)).1

/-- Claim C7: in every reachable record the error is present iff the status
is `failed`, `timeout` or `canceled`; reaching `completed` forces progress
to 100 with a null error; and the failed, timeout and cancel transitions
leave progress at its last known value. -/
theorem error_iff_failure_spec (V : Bool) (k : JobKind) (t : Nat) {s : Sys}
    (hr : Reachable V k t s) :
    (s.job.error.isSome = true ↔
      (s.job.status = Status.failed ∨ s.job.status = Status.timeout ∨
        s.job.status = Status.canceled)) ∧
    (s.job.status = Status.completed → s.job.progress = 100 ∧ s.job.error = none) ∧
    (∀ (j : JobState) (r : ResultVal) (now : Nat),
      j.status ≠ Status.canceled → resultCanceled r = false →
      (completeBlock j r now).status = Status.completed ∧
      (completeBlock j r now).progress = 100 ∧
      (completeBlock j r now).error = none) ∧
    (∀ (j : JobState) (code msg : String) (d : Option String) (now : Nat),
      (fail_job j code msg d now).progress = j.progress ∧
      (timeout_job j now).progress = j.progress ∧
      (applyCancel j now).progress = j.progress) := by
  have hI := reachable_inv hr
  refine ⟨hI.errIff, ?_, ?_, ?_⟩
  · intro hc
    refine ⟨hI.compProg hc, ?_⟩
    have hfalse : ¬ (s.job.error.isSome = true) := by
      rw [hI.errIff, hc]
      simp
    simpa using hfalse
  · intro j r now h1 h2
    refine ⟨?_, ?_, ?_⟩ <;> simp [completeBlock, h1, h2]
  · intro j code msg d now
    refine ⟨?_, ?_, ?_⟩
    · unfold fail_job; split_ifs <;> rfl
    · unfold timeout_job; split_ifs <;> rfl
    · unfold applyCancel; split_ifs <;> rfl

theorem error_iff_failure_spec_witness :
    (completeBlock (startRecord (initJob JobKind.scan 0) 1)
      { isDict := true, canceledFlag := false } 2).progress = 100 ∧
    (fail_job (initJob JobKind.scan 3) "X" "m" none 4).progress =
      (initJob JobKind.scan 3).progress := by
  have h := error_iff_failure_spec true JobKind.scan 0 Reachable.init
  exact ⟨(h.2.2.1 _ { isDict := true, canceledFlag := false } 2
      (by decide) (by decide)).2.1,
    (h.2.2.2 (initJob JobKind.scan 3) "X" "m" none 4).1⟩

theorem applyFilters_eq_filter (store : List JobState) (kind : Option JobKind)
    (status : Option Status) :
    applyFilters store kind status = store.filter (matchesFilters kind status) := by
  cases kind with
  | none =>
      cases status with
      | none =>
          simp only [applyFilters]
          symm
          refine List.filter_eq_self.mpr fun a _ => rfl
      | some stv =>
          simp only [applyFilters]
          refine List.filter_congr fun a _ => ?_
          simp [matchesFilters]
  | some kv =>
      cases status with
      | none =>
          simp only [applyFilters]
          refine List.filter_congr fun a _ => ?_
          simp [matchesFilters]
      | some stv =>
          simp only [applyFilters, List.filter_filter]
          refine List.filter_congr fun a _ => ?_
          simp [matchesFilters, Bool.and_comm]

/-- Claim C8: `list_jobs` returns exactly the records matching the optional
equality filters on kind and status, as a list sorted by `created_at`
descending and truncated to the first `limit` elements; the embedding is a
pure function of the store snapshot, so no job record is mutated. -/
theorem list_jobs_spec (store : List JobState) (kind : Option JobKind)
    (status : Option Status) (limit : Nat) :
    (∃ sorted : List JobState,
      sorted.Perm (store.filter (matchesFilters kind status)) ∧
      List.Sorted createdDesc sorted ∧
      list_jobs store kind status limit = sorted.take limit) ∧
    List.Sorted createdDesc (list_jobs store kind status limit) ∧
    (list_jobs store kind status limit).length =
      min limit (store.filter (matchesFilters kind status)).length ∧
    (∀ j ∈ list_jobs store kind status limit,
      matchesFilters kind status j = true) := by
  have hsorted := List.sorted_insertionSort createdDesc (applyFilters store kind status)
  have hperm := List.perm_insertionSort createdDesc (applyFilters store kind status)
  have heq := applyFilters_eq_filter store kind status
  refine ⟨⟨List.insertionSort createdDesc (applyFilters store kind status),
      by rw [← heq]; exact hperm, hsorted, rfl⟩, ?_, ?_, ?_⟩
  · exact List.Pairwise.sublist (List.take_sublist _ _) hsorted
  · rw [list_jobs, List.length_take, hperm.length_eq, heq]
  · intro j hj
    have h1 : j ∈ List.insertionSort createdDesc (applyFilters store kind status) :=
      List.mem_of_mem_take hj
    have h2 : j ∈ applyFilters store kind status := hperm.mem_iff.mp h1
    rw [heq] at h2
    exact List.of_mem_filter h2

theorem list_jobs_spec_witness :
    List.Sorted createdDesc
      (list_jobs [initJob JobKind.scan 1, initJob JobKind.run_tests 5]
        (some JobKind.scan) none 10) :=
  (list_jobs_spec [initJob JobKind.scan 1, initJob JobKind.run_tests 5]
    (some JobKind.scan) none 10).2.1

/-- Claim C9: for 0 ≤ start ≤ end ≤ 100 the remapped progress produced by
the composition helper sends local 0 to start and local 100 to end, always
lands in [start, end], and is monotone in the local progress; hence the two
sub-ranges [5,49] and [50,95] used by the comparison evaluation compose
into a non-decreasing parent progress. -/
theorem map_progress_spec (st en : Int) (h0 : 0 ≤ st) (h1 : st ≤ en)
    (h2 : en ≤ 100) :
    map_progress st en 0 = st ∧
    map_progress st en 100 = en ∧
    (∀ p : Int, st ≤ map_progress st en p ∧ map_progress st en p ≤ en) ∧
    (∀ p q : Int, p ≤ q → map_progress st en p ≤ map_progress st en q) ∧
    (∀ p q : Int, map_progress 5 49 p ≤ map_progress 50 95 q) := by
  have key : ∀ a b : Int, 0 ≤ a → a ≤ b → b ≤ 100 → ∀ p : Int,
      map_progress a b p = a + max 0 (min p 100) * (b - a) / 100 := by
    intro a b ha hab hb p
    simp only [map_progress]
    have hss : max 0 (min a 100) = a := by omega
    rw [hss]
    have hse : max a (min b 100) = b := by omega
    rw [hse]
  have hbound : ∀ a b : Int, 0 ≤ a → a ≤ b → b ≤ 100 → ∀ p : Int,
      a ≤ map_progress a b p ∧ map_progress a b p ≤ b := by
    intro a b ha hab hb p
    rw [key a b ha hab hb p]
    have hc1 : (0:Int) ≤ max 0 (min p 100) := le_max_left _ _
    have hc2 : max 0 (min p 100) ≤ 100 := by omega
    have hs : (0:Int) ≤ b - a := by omega
    constructor
    · have hpos : (0:Int) ≤ max 0 (min p 100) * (b - a) / 100 :=
        Int.ediv_nonneg (mul_nonneg hc1 hs) (by norm_num)
      omega
    · have hm : max 0 (min p 100) * (b - a) ≤ 100 * (b - a) :=
        mul_le_mul_of_nonneg_right hc2 hs
      have hd : max 0 (min p 100) * (b - a) / 100 ≤ 100 * (b - a) / 100 :=
        Int.ediv_le_ediv (by norm_num) hm
      rw [Int.mul_ediv_cancel_left _ (by norm_num : (100:Int) ≠ 0)] at hd
      omega
  refine ⟨?_, ?_, hbound st en h0 h1 h2, ?_, ?_⟩
  · rw [key st en h0 h1 h2 0]
    norm_num
  · rw [key st en h0 h1 h2 100]
    norm_num
  · intro p q hpq
    rw [key st en h0 h1 h2 p, key st en h0 h1 h2 q]
    have hc : max 0 (min p 100) ≤ max 0 (min q 100) := by omega
    have hs : (0:Int) ≤ en - st := by omega
    have h3 : max 0 (min p 100) * (en - st) ≤ max 0 (min q 100) * (en - st) :=
      mul_le_mul_of_nonneg_right hc hs
    have h4 := Int.ediv_le_ediv (by norm_num : (0:Int) < 100) h3
    omega
  · intro p q
    have hA := (hbound 5 49 (by norm_num) (by norm_num) (by norm_num) p).2
    have hB := (hbound 50 95 (by norm_num) (by norm_num) (by norm_num) q).1
    omega

theorem map_progress_spec_witness :
    map_progress 5 49 0 = 5 ∧ map_progress 5 49 100 = 49 := by
  have h := map_progress_spec 5 49 (by decide) (by decide) (by decide)
  exact ⟨h.1, h.2.1⟩

theorem httpLoop_spec (passedAt stopAt : Nat → Bool) :
    ∀ (rem i : Nat),
      (httpLoop passedAt stopAt i rem).1.length ≤ rem ∧
      ((httpLoop passedAt stopAt i rem).2 = true →
        (httpLoop passedAt stopAt i rem).1.length < rem) := by
  intro rem
  induction rem with
  | zero => intro i; simp [httpLoop]
  | succ n ih =>
      intro i
      by_cases hst : stopAt i
      · constructor <;> simp [httpLoop, hst]
      · have h1 := (ih (i + 1)).1
        have h2 := (ih (i + 1)).2
        constructor
        · simp [httpLoop, hst]
          omega
        · simp [httpLoop, hst]
          intro hc
          have := h2 hc
          omega

theorem batchLoopAux_spec (passedAt stopAt : Nat → Bool) (bs : Nat) (hbs : 1 ≤ bs) :
    ∀ (fuel rem start : Nat), rem ≤ fuel →
      (batchLoopAux passedAt stopAt bs fuel start rem).1.length ≤ rem ∧
      ((batchLoopAux passedAt stopAt bs fuel start rem).2 = true →
        (batchLoopAux passedAt stopAt bs fuel start rem).1.length < rem) := by
  intro fuel
  induction fuel with
  | zero => intro rem start h; simp [batchLoopAux]
  | succ f ih =>
      intro rem start h
      cases rem with
      | zero => simp [batchLoopAux]
      | succ m =>
          by_cases hst : stopAt start
          · constructor <;> simp [batchLoopAux, hst]
          · have hk1 : 1 ≤ min bs (m + 1) := by omega
            have hrec := ih (m + 1 - min bs (m + 1)) (start + min bs (m + 1)) (by omega)
            have hr1 := hrec.1
            have hr2 := hrec.2
            constructor
            · simp [batchLoopAux, hst]
              omega
            · simp [batchLoopAux, hst]
              intro hc
              have := hr2 hc
              omega

/-- Claim C10: the result of the scripted test-execution unit of work
satisfies: passed plus failed equals total, total equals the number of
per-test entries, total is at most the number of input tests, and when the
canceled flag is set (the stop signal was observed at a step or batch
boundary) total is strictly below the number of input tests. -/
theorem run_tests_counts_spec (playwrightAvailable : Bool)
    (passedAt stopAt : Nat → Bool) (n bs : Nat) (hbs : 1 ≤ bs) :
    (run_flow_spec_tests playwrightAvailable passedAt stopAt n bs).passed +
      (run_flow_spec_tests playwrightAvailable passedAt stopAt n bs).failed =
      (run_flow_spec_tests playwrightAvailable passedAt stopAt n bs).total ∧
    (run_flow_spec_tests playwrightAvailable passedAt stopAt n bs).total =
      (run_flow_spec_tests playwrightAvailable passedAt stopAt n bs).tests.length ∧
    (run_flow_spec_tests playwrightAvailable passedAt stopAt n bs).total ≤ n ∧
    ((run_flow_spec_tests playwrightAvailable passedAt stopAt n bs).canceled = true →
      (run_flow_spec_tests playwrightAvailable passedAt stopAt n bs).total < n) := by
  cases playwrightAvailable with
  | false =>
      obtain ⟨hl, hcan⟩ := httpLoop_spec passedAt stopAt n 0
      have hc : (httpLoop passedAt stopAt 0 n).1.count true ≤
          (httpLoop passedAt stopAt 0 n).1.length := List.count_le_length _ _
      refine ⟨?_, rfl, ?_, ?_⟩
      · simp [run_flow_spec_tests]
        omega
      · simpa [run_flow_spec_tests] using hl
      · intro hcc
        simp [run_flow_spec_tests] at hcc ⊢
        exact hcan hcc
  | true =>
      obtain ⟨hl, hcan⟩ := batchLoopAux_spec passedAt stopAt bs hbs n n 0 (le_refl n)
      have hc : (batchLoopAux passedAt stopAt bs n 0 n).1.count true ≤
          (batchLoopAux passedAt stopAt bs n 0 n).1.length := List.count_le_length _ _
      refine ⟨?_, rfl, ?_, ?_⟩
      · simp [run_flow_spec_tests]
        omega
      · simpa [run_flow_spec_tests] using hl
      · intro hcc
        simp [run_flow_spec_tests] at hcc ⊢
        exact hcan hcc

theorem run_tests_counts_spec_witness :
    (run_flow_spec_tests true (fun _ => true) (fun _ => false) 5 2).passed +
      (run_flow_spec_tests true (fun _ => true) (fun _ => false) 5 2).failed =
      (run_flow_spec_tests true (fun _ => true) (fun _ => false) 5 2).total ∧
    (run_flow_spec_tests true (fun _ => true) (fun _ => false) 5 2).total ≤ 5 := by
  have h := run_tests_counts_spec true (fun _ => true) (fun _ => false) 5 2 (by decide)
  exact ⟨h.1, h.2.2.1⟩

end JobWorker
